import Mathlib

set_option maxHeartbeats 1000000

/-!
Verification of the interactive-segmentation predictor construction,
the model-hash sidecar tool, the dataset file-list parsing and the
checkpoint-retention logic of the PaddleSeg repository, against its
natural-language specification.
-/

namespace EISeg

/-- A `ZoomIn` transform as constructed by `ZoomIn(**zoom_in_params)` in
`eiseg/inference/predictor/__init__.py`; the keyword arguments it was
constructed with are recorded (its internals live in
`inference.transforms`, outside the excerpted source). -/
structure ZoomIn where
  kwargs : List (String × ℚ)
deriving DecidableEq

/-- The `BasePredictor` value built by `get_predictor`: the network handle,
the optional zoom-in transform, the flip flag, and the remaining keyword
arguments (the merged `predictor_params_` dict). -/
structure Predictor where
  net : Nat
  zoom_in : Option ZoomIn
  with_flip : Bool
  params : List (String × Int)
deriving DecidableEq

/-- The exception raised by `get_predictor` for unsupported modes
(`raise NotImplementedError('Just support NoBRS mode')`). -/
inductive PredictorError
  | notImplementedError (msg : String)
deriving DecidableEq

/-- Python dict union `a |= b` on association lists with unique keys:
keys of `a` keep their place, values from `b` override, new keys of `b`
are appended. -/
def dictUnion (a b : List (String × Int)) : List (String × Int) :=
  (a.map fun kv => (kv.1, ((b.lookup kv.1).getD kv.2))) ++
    b.filter fun kv => (a.lookup kv.1).isNone

/-- `get_predictor(net, brs_mode, with_flip=True, zoom_in_params=dict(),
predictor_params=None)` from `eiseg/inference/predictor/__init__.py`:
builds the default `predictor_params_` dict with
`optimize_after_n_clicks = 1`, builds `zoom_in` from `zoom_in_params`
unless that argument is `None`, and constructs a `BasePredictor` only in
`'NoBRS'` mode, raising `NotImplementedError` otherwise. -/
def get_predictor (net : Nat) (brs_mode : String)
    (with_flip : Bool := true)
    (zoom_in_params : Option (List (String × ℚ)) := some [])
    (predictor_params : Option (List (String × Int)) := none) :
    Except PredictorError Predictor :=
  let predictor_params_ : List (String × Int) := [("optimize_after_n_clicks", 1)]
  let zoom_in : Option ZoomIn := zoom_in_params.map ZoomIn.mk
  if brs_mode = "NoBRS" then
    let merged := match predictor_params with
      | some p => dictUnion predictor_params_ p
      | none => predictor_params_
    .ok { net := net, zoom_in := zoom_in, with_flip := with_flip, params := merged }
  else
    .error (.notImplementedError "Just support NoBRS mode")

end EISeg

namespace EISeg

/-- C1: for every `brs_mode` other than `'NoBRS'`, `get_predictor` raises an
error at construction time (the source's `NotImplementedError`, which the
spec names `UnsupportedModeError`) and returns no predictor; for
`brs_mode = 'NoBRS'` it constructs and returns a predictor. -/
theorem get_predictor_mode_dispatch (net : Nat) (brs_mode : String) (wf : Bool)
    (zp : Option (List (String × ℚ))) (pp : Option (List (String × Int))) :
    (brs_mode ≠ "NoBRS" →
      get_predictor net brs_mode wf zp pp =
        .error (.notImplementedError "Just support NoBRS mode")) ∧
    (brs_mode = "NoBRS" → ∃ p, get_predictor net brs_mode wf zp pp = .ok p) := by
  constructor
  · intro h
    simp [get_predictor, h]
  · intro h
    subst h
    exact ⟨_, rfl⟩

theorem get_predictor_mode_dispatch_witness :
    "f-BRS-B" ≠ "NoBRS" ∧
    get_predictor 0 "f-BRS-B" true (some []) none =
      .error (.notImplementedError "Just support NoBRS mode") ∧
    get_predictor 0 "NoBRS" true (some []) none =
      .ok ⟨0, some (ZoomIn.mk []), true, [("optimize_after_n_clicks", 1)]⟩ :=
  ⟨by decide,
   (get_predictor_mode_dispatch 0 "f-BRS-B" true (some []) none).1 (by decide),
   rfl⟩

/-- C3: whenever `get_predictor` is called with `zoom_in_params = None`, no
`ZoomIn` transform is constructed and the returned predictor has
`zoom_in = None`. -/
theorem get_predictor_zoom_none (net : Nat) (brs_mode : String) (wf : Bool)
    (pp : Option (List (String × Int))) (p : Predictor)
    (h : get_predictor net brs_mode wf none pp = .ok p) :
    p.zoom_in = none := by
  by_cases hm : brs_mode = "NoBRS" <;> simp [get_predictor, hm] at h
  cases pp <;> simp at h <;> simp [← h]

theorem get_predictor_zoom_none_witness :
    get_predictor 0 "NoBRS" true none none =
      .ok ⟨0, none, true, [("optimize_after_n_clicks", 1)]⟩ ∧
    (Predictor.mk 0 none true [("optimize_after_n_clicks", 1)]).zoom_in = none :=
  ⟨rfl,
   get_predictor_zoom_none 0 "NoBRS" true none
     ⟨0, none, true, [("optimize_after_n_clicks", 1)]⟩ rfl⟩

theorem dictUnion_lookup_head (k : String) (v : Int) (b : List (String × Int)) :
    (dictUnion [(k, v)] b).lookup k = some ((b.lookup k).getD v) := by
  simp [dictUnion, List.lookup]

/-- C4: in `'NoBRS'` mode, when the caller supplies no `predictor_params` (or
a mapping without the key `'optimize_after_n_clicks'`), the constructed
predictor receives `optimize_after_n_clicks = 1`; when the caller's mapping
contains the key, the caller's value is used instead. -/
theorem get_predictor_optimize_after_n_clicks (net : Nat) (wf : Bool)
    (zp : Option (List (String × ℚ))) :
    (∀ p, get_predictor net "NoBRS" wf zp none = .ok p →
      p.params.lookup "optimize_after_n_clicks" = some 1) ∧
    (∀ pp p, get_predictor net "NoBRS" wf zp (some pp) = .ok p →
      pp.lookup "optimize_after_n_clicks" = none →
      p.params.lookup "optimize_after_n_clicks" = some 1) ∧
    (∀ pp v p, get_predictor net "NoBRS" wf zp (some pp) = .ok p →
      pp.lookup "optimize_after_n_clicks" = some v →
      p.params.lookup "optimize_after_n_clicks" = some v) := by
  refine ⟨?_, ?_, ?_⟩
  · intro p h
    simp [get_predictor] at h
    simp [← h, List.lookup]
  · intro pp p h hk
    simp [get_predictor] at h
    simp [← h, dictUnion_lookup_head, hk]
  · intro pp v p h hk
    simp [get_predictor] at h
    simp [← h, dictUnion_lookup_head, hk]

theorem get_predictor_optimize_after_n_clicks_witness :
    (get_predictor 0 "NoBRS" true (some []) none =
      .ok ⟨0, some (ZoomIn.mk []), true, [("optimize_after_n_clicks", 1)]⟩ ∧
     (Predictor.mk 0 (some (ZoomIn.mk []))
        true [("optimize_after_n_clicks", 1)]).params.lookup
          "optimize_after_n_clicks" = some 1) ∧
    (get_predictor 0 "NoBRS" true (some []) (some [("optimize_after_n_clicks", 7)]) =
      .ok ⟨0, some (ZoomIn.mk []), true, [("optimize_after_n_clicks", 7)]⟩ ∧
     (Predictor.mk 0 (some (ZoomIn.mk []))
        true [("optimize_after_n_clicks", 7)]).params.lookup
          "optimize_after_n_clicks" = some 7) :=
  ⟨⟨rfl, (get_predictor_optimize_after_n_clicks 0 true (some [])).1 _ rfl⟩,
   ⟨rfl, (get_predictor_optimize_after_n_clicks 0 true (some [])).2.2
      [("optimize_after_n_clicks", 7)] 7 _ rfl rfl⟩⟩

/-- C5: `get_predictor`'s `with_flip` parameter defaults to `True` and is
passed through unchanged to the constructed predictor. -/
theorem get_predictor_with_flip (net : Nat) (brs_mode : String) :
    (get_predictor net brs_mode = get_predictor net brs_mode true (some []) none) ∧
    (∀ wf zp pp p, get_predictor net brs_mode wf zp pp = .ok p →
      p.with_flip = wf) := by
  refine ⟨rfl, ?_⟩
  intro wf zp pp p h
  by_cases hm : brs_mode = "NoBRS" <;> simp [get_predictor, hm] at h
  simp [← h]

theorem get_predictor_with_flip_witness :
    get_predictor 0 "NoBRS" false (some []) none =
      .ok ⟨0, some (ZoomIn.mk []), false, [("optimize_after_n_clicks", 1)]⟩ ∧
    (Predictor.mk 0 (some (ZoomIn.mk []))
      false [("optimize_after_n_clicks", 1)]).with_flip = false :=
  ⟨rfl, (get_predictor_with_flip 0 "NoBRS").2 false (some []) none _ rfl⟩

/-- C8: calling `get_predictor` without `zoom_in_params` uses the default
value `dict()` (not `None`), hence constructs a `ZoomIn` with that
transform's own default parameters and zoom-in is enabled; zoom-in is
disabled (`zoom_in = None`) exactly when the caller passes
`zoom_in_params = None` explicitly. -/
theorem get_predictor_zoom_default (net : Nat) (wf : Bool)
    (pp : Option (List (String × Int))) :
    (∀ brs_mode, get_predictor net brs_mode wf =
      get_predictor net brs_mode wf (some []) none) ∧
    (∀ p, get_predictor net "NoBRS" wf (some []) pp = .ok p →
      p.zoom_in = some (ZoomIn.mk [])) ∧
    (∀ zp p, get_predictor net "NoBRS" wf zp pp = .ok p →
      (p.zoom_in = none ↔ zp = none)) := by
  refine ⟨fun _ => rfl, ?_, ?_⟩
  · intro p h
    simp [get_predictor] at h
    simp [← h]
  · intro zp p h
    simp [get_predictor] at h
    cases zp <;> simp [← h]

theorem get_predictor_zoom_default_witness :
    get_predictor 0 "NoBRS" true (some []) none =
      .ok ⟨0, some (ZoomIn.mk []), true, [("optimize_after_n_clicks", 1)]⟩ ∧
    (Predictor.mk 0 (some (ZoomIn.mk []))
      true [("optimize_after_n_clicks", 1)]).zoom_in = some (ZoomIn.mk []) :=
  ⟨rfl, (get_predictor_zoom_default 0 true none).2.1 _ rfl⟩

end EISeg

/-! `hashlib.md5(...).hexdigest()` (RFC 1321), over byte lists. -/

namespace MD5

def kTable : List Nat :=
  [0xd76aa478, 0xe8c7b756, 0x242070db, 0xc1bdceee,
   0xf57c0faf, 0x4787c62a, 0xa8304613, 0xfd469501,
   0x698098d8, 0x8b44f7af, 0xffff5bb1, 0x895cd7be,
   0x6b901122, 0xfd987193, 0xa679438e, 0x49b40821,
   0xf61e2562, 0xc040b340, 0x265e5a51, 0xe9b6c7aa,
   0xd62f105d, 0x02441453, 0xd8a1e681, 0xe7d3fbc8,
   0x21e1cde6, 0xc33707d6, 0xf4d50d87, 0x455a14ed,
   0xa9e3e905, 0xfcefa3f8, 0x676f02d9, 0x8d2a4c8a,
   0xfffa3942, 0x8771f681, 0x6d9d6122, 0xfde5380c,
   0xa4beea44, 0x4bdecfa9, 0xf6bb4b60, 0xbebfbc70,
   0x289b7ec6, 0xeaa127fa, 0xd4ef3085, 0x04881d05,
   0xd9d4d039, 0xe6db99e5, 0x1fa27cf8, 0xc4ac5665,
   0xf4292244, 0x432aff97, 0xab9423a7, 0xfc93a039,
   0x655b59c3, 0x8f0ccc92, 0xffeff47d, 0x85845dd1,
   0x6fa87e4f, 0xfe2ce6e0, 0xa3014314, 0x4e0811a1,
   0xf7537e82, 0xbd3af235, 0x2ad7d2bb, 0xeb86d391]

def sTable : List Nat :=
  [7, 12, 17, 22, 7, 12, 17, 22, 7, 12, 17, 22, 7, 12, 17, 22,
   5, 9, 14, 20, 5, 9, 14, 20, 5, 9, 14, 20, 5, 9, 14, 20,
   4, 11, 16, 23, 4, 11, 16, 23, 4, 11, 16, 23, 4, 11, 16, 23,
   6, 10, 15, 21, 6, 10, 15, 21, 6, 10, 15, 21, 6, 10, 15, 21]

def not32 (a : Nat) : Nat := Nat.xor a 0xffffffff

def rotl32 (x s : Nat) : Nat := ((x <<< s) ||| (x >>> (32 - s))) % 4294967296

/-- MD5 padding: append `0x80`, zeros up to 56 mod 64, then the original
bit length as 8 little-endian bytes. -/
def padBytes (msg : List Nat) : List Nat :=
  let len := msg.length
  let zeros := (119 - (len % 64)) % 64
  msg ++ [0x80] ++ List.replicate zeros 0 ++
    ((List.range 8).map fun i => ((len * 8) >>> (8 * i)) % 256)

/-- Split a byte list into 64-byte chunks (fuel-driven, fuel ≥ length). -/
def toChunks : Nat → List Nat → List (List Nat)
  | 0, _ => []
  | _, [] => []
  | fuel + 1, bs => bs.take 64 :: toChunks fuel (bs.drop 64)

/-- Little-endian 32-bit word `g` of a 64-byte chunk. -/
def word (chunk : List Nat) (g : Nat) : Nat :=
  chunk.getD (4 * g) 0 + chunk.getD (4 * g + 1) 0 * 256 +
    chunk.getD (4 * g + 2) 0 * 65536 + chunk.getD (4 * g + 3) 0 * 16777216

def round (chunk : List Nat) (st : Nat × Nat × Nat × Nat) (i : Nat) :
    Nat × Nat × Nat × Nat :=
  let (a, b, c, d) := st
  let fg : Nat × Nat :=
    if i < 16 then ((b &&& c) ||| (not32 b &&& d), i)
    else if i < 32 then ((d &&& b) ||| (not32 d &&& c), (5 * i + 1) % 16)
    else if i < 48 then (Nat.xor (Nat.xor b c) d, (3 * i + 5) % 16)
    else (Nat.xor c (b ||| not32 d), (7 * i) % 16)
  let f := (fg.1 + a + kTable.getD i 0 + word chunk fg.2) % 4294967296
  (d, (b + rotl32 f (sTable.getD i 0)) % 4294967296, b, c)

def processChunk (st : Nat × Nat × Nat × Nat) (chunk : List Nat) :
    Nat × Nat × Nat × Nat :=
  let (a0, b0, c0, d0) := st
  let r := (List.range 64).foldl (round chunk) (a0, b0, c0, d0)
  ((a0 + r.1) % 4294967296, (b0 + r.2.1) % 4294967296,
   (c0 + r.2.2.1) % 4294967296, (d0 + r.2.2.2) % 4294967296)

def md5State (msg : List Nat) : Nat × Nat × Nat × Nat :=
  let padded := padBytes msg
  (toChunks padded.length padded).foldl processChunk
    (0x67452301, 0xefcdab89, 0x98badcfe, 0x10325476)

def hexDigitChar (n : Nat) : Char :=
  if n < 10 then Char.ofNat (48 + n) else Char.ofNat (87 + n)

def byteHex (b : Nat) : List Char := [hexDigitChar (b / 16), hexDigitChar (b % 16)]

/-- A 32-bit word rendered as 8 lowercase hex chars, least-significant
byte first (MD5 digest byte order). -/
def wordLEHex (w : Nat) : List Char :=
  byteHex (w % 256) ++ byteHex (w / 256 % 256) ++
    byteHex (w / 65536 % 256) ++ byteHex (w / 16777216 % 256)

/-- `hashlib.md5(bytes).hexdigest()`. -/
def hexdigest (msg : List Nat) : String :=
  let st := md5State msg
  String.mk (wordLEHex st.1 ++ wordLEHex st.2.1 ++
    wordLEHex st.2.2.1 ++ wordLEHex st.2.2.2)

end MD5

/-! The hash-update tool `EISeg/tool/update_md5.py`. -/

namespace UpdateMD5

/-- A regular file under the tool's `models_dir`: its path, as the list of
path components relative to `models_dir`, and its byte content. -/
structure ModelFile where
  segments : List String
  content : List Nat
deriving DecidableEq

/-- `models_dir.glob("*/*.pdparams")`: paths with exactly two components
whose file name ends in `.pdparams`. -/
def matchesPattern (segs : List String) : Bool :=
  match segs with
  | [_, f] => (".pdparams".data).isSuffixOf f.data
  | _ => false

/-- `str(model_path)`: join the path components with `/`. -/
def pathStr (segs : List String) : String :=
  String.mk (((segs.map String.data).intersperse ['/']).flatten)

/-- `f"{str(model_path)[:-len(ext)]}.md5"` with `ext = ".pdparams"`. -/
def sidecarPath (segs : List String) : String :=
  let s := pathStr segs
  String.mk (s.data.take (s.data.length - 9) ++ ".md5".data)

/-- The whole script: for every glob match, write the `.md5` sidecar
holding the hex digest of the weight file's bytes. Returns the list of
(path, text) writes performed, in glob order. -/
def update_md5 (files : List ModelFile) : List (String × String) :=
  (files.filter fun f => matchesPattern f.segments).map
    fun f => (sidecarPath f.segments, MD5.hexdigest f.content)

end UpdateMD5

namespace UpdateMD5

/-- C2: every weight file matching `*/*.pdparams` gets a sidecar write at
the same path with the `.pdparams` suffix replaced by `.md5`, whose content
is exactly the MD5 hex digest of the weight file's bytes; no other files
are written. -/
theorem update_md5_sidecar_writes (files : List ModelFile) :
    (∀ f ∈ files, matchesPattern f.segments = true →
      (sidecarPath f.segments, MD5.hexdigest f.content) ∈ update_md5 files) ∧
    (∀ w ∈ update_md5 files, ∃ f ∈ files,
      matchesPattern f.segments = true ∧
      w = (sidecarPath f.segments, MD5.hexdigest f.content)) ∧
    (∀ d g, sidecarPath [d, String.mk (g ++ ".pdparams".data)] =
      pathStr [d, String.mk (g ++ ".md5".data)]) := by
  refine ⟨?_, ?_, ?_⟩
  · intro f hf hm
    exact List.mem_map_of_mem _ (List.mem_filter.2 ⟨hf, hm⟩)
  · intro w hw
    obtain ⟨f, hf, rfl⟩ := List.mem_map.1 hw
    obtain ⟨hf', hm⟩ := List.mem_filter.1 hf
    exact ⟨f, hf', hm, rfl⟩
  · intro d g
    show String.mk ((String.mk _).data.take _ ++ _) = _
    simp only [pathStr, List.map_cons, List.map_nil, List.intersperse,
      List.flatten, List.append_nil]
    have h1 : d.data ++ (['/'] ++ (g ++ ".pdparams".data)) =
        (d.data ++ ['/'] ++ g) ++ ".pdparams".data := by
      simp
    rw [h1]
    have h2 : ((d.data ++ ['/'] ++ g) ++ ".pdparams".data).length - 9 =
        (d.data ++ ['/'] ++ g).length := by
      simp [List.length_append]
      omega
    rw [h2, List.take_left]
    simp

theorem update_md5_sidecar_writes_witness :
    (ModelFile.mk ["hrnet", "model.pdparams"] [97, 98, 99]) ∈
      [ModelFile.mk ["hrnet", "model.pdparams"] [97, 98, 99],
       ModelFile.mk ["readme.txt"] []] ∧
    matchesPattern ["hrnet", "model.pdparams"] = true ∧
    (sidecarPath ["hrnet", "model.pdparams"],
      MD5.hexdigest [97, 98, 99]) ∈
      update_md5 [ModelFile.mk ["hrnet", "model.pdparams"] [97, 98, 99],
                  ModelFile.mk ["readme.txt"] []] ∧
    sidecarPath ["hrnet", "model.pdparams"] = "hrnet/model.md5" ∧
    MD5.hexdigest [97, 98, 99] = "900150983cd24fb0d6963f7d28e17f72" :=
  ⟨List.mem_cons_self _ _, rfl,
   (update_md5_sidecar_writes
      [ModelFile.mk ["hrnet", "model.pdparams"] [97, 98, 99],
       ModelFile.mk ["readme.txt"] []]).1
     (ModelFile.mk ["hrnet", "model.pdparams"] [97, 98, 99])
     (List.mem_cons_self _ _) rfl,
   rfl, rfl⟩

end UpdateMD5

/-! Python string primitives used by `paddleseg/datasets/dataset.py`. -/

namespace PyStr

/-- The whitespace characters stripped by Python `str.strip()` (ASCII part). -/
def isPySpace (c : Char) : Bool :=
  c == ' ' || c == '\t' || c == '\n' || c == '\r' ||
    c == Char.ofNat 11 || c == Char.ofNat 12

/-- Python `str.strip()`. -/
def pyStrip (s : String) : String :=
  String.mk (((s.data.dropWhile isPySpace).reverse.dropWhile isPySpace).reverse)

/-- ASCII lowercasing of one character, as in Python `str.lower()`. -/
def lowerChar (c : Char) : Char :=
  if 65 ≤ c.toNat ∧ c.toNat ≤ 90 then Char.ofNat (c.toNat + 32) else c

/-- Python `str.lower()`. -/
def pyLower (s : String) : String := String.mk (s.data.map lowerChar)

/-- Worker for `str.split(sep)` with an explicit (non-empty) separator:
scan left to right, cutting at each occurrence of `sep`. `fuel` only
drives termination and is at least the length of the scanned list. -/
def splitGo (sep : List Char) : Nat → List Char → List Char → List (List Char)
  | 0, cs, acc => [acc.reverse ++ cs]
  | fuel + 1, cs, acc =>
    if sep ≠ [] ∧ sep.isPrefixOf cs then
      acc.reverse :: splitGo sep fuel (cs.drop sep.length) []
    else
      match cs with
      | [] => [acc.reverse]
      | c :: cs2 => splitGo sep fuel cs2 (c :: acc)

/-- Python `s.split(sep)` for a non-empty separator `sep`. -/
def pySplit (s sep : String) : List String :=
  (splitGo sep.data s.data.length s.data []).map String.mk

/-- Python `os.path.join(a, b)` (posix, two arguments). -/
def osJoin (a b : String) : String :=
  match b.data with
  | '/' :: _ => b
  | _ =>
    if a = "" then b
    else if a.data.getLast? = some '/' then String.mk (a.data ++ b.data)
    else String.mk (a.data ++ '/' :: b.data)

theorem toNat_ofNat_of_lt (n : Nat) (h : n < 55296) : (Char.ofNat n).toNat = n := by
  simp [Char.ofNat, Char.toNat, Nat.isValidChar, h, Char.ofNatAux,
    UInt32.toNat, BitVec.toNat_ofNatLt]

theorem lowerChar_idem (c : Char) : lowerChar (lowerChar c) = lowerChar c := by
  unfold lowerChar
  by_cases h : 65 ≤ c.toNat ∧ c.toNat ≤ 90
  · rw [if_pos h, if_neg]
    rw [toNat_ofNat_of_lt (c.toNat + 32) (by omega)]
    omega
  · rw [if_neg h, if_neg h]

theorem pyLower_idem (s : String) : pyLower (pyLower s) = pyLower s := by
  simp [pyLower, List.map_map, Function.comp_def, lowerChar_idem]

end PyStr

/-! `Dataset.__init__` from `paddleseg/datasets/dataset.py`: mode
validation and file-list line parsing. -/

namespace SegDataset

inductive DsError
  | valueError (msg : String)
deriving DecidableEq

/-- Lines 78–85 of `Dataset.__init__`: `mode = mode.lower()`, then raise
`ValueError` when `mode.lower()` is not `train`, `val` or `test`. -/
def checkMode (mode : String) : Except DsError String :=
  let m := PyStr.pyLower mode
  if PyStr.pyLower m ∈ (["train", "val", "test"] : List String) then .ok m
  else .error (.valueError ("mode should be train, val or test, but got " ++ m ++ "."))

/-- Lines 122–135 of `Dataset.__init__`: strip and split one file-list
line; a line with other than two fields raises `ValueError` in `train` or
`val` mode and yields `(image_path, None)` in `test` mode; a two-field
line yields both joined paths. -/
def parseLine (mode separator dataset_root line : String) :
    Except DsError (String × Option String) :=
  let items := PyStr.pySplit (PyStr.pyStrip line) separator
  if items.length ≠ 2 then
    if mode = "train" ∨ mode = "val" then
      .error (.valueError
        ("File list format incorrect! In training or evaluation task it should be image_name"
          ++ separator ++ "label_name"))
    else
      .ok (PyStr.osJoin dataset_root (items.headD ""), none)
  else
    .ok (PyStr.osJoin dataset_root (items.headD ""),
      some (PyStr.osJoin dataset_root (items.getD 1 "")))

/-- C9: `Dataset.__init__` raises `ValueError` for every mode (after
lowercasing) other than `train`, `val` or `test`; a file-list line that
does not split into exactly two separator-delimited fields raises
`ValueError` in `train` or `val` mode, but in `test` mode is accepted as
an entry whose label path is `None`. -/
theorem dataset_mode_and_line_errors :
    (∀ mode, PyStr.pyLower mode ∉ (["train", "val", "test"] : List String) →
      ∃ m, checkMode mode = .error (.valueError m)) ∧
    (∀ mode, PyStr.pyLower mode ∈ (["train", "val", "test"] : List String) →
      checkMode mode = .ok (PyStr.pyLower mode)) ∧
    (∀ sep root line, (PyStr.pySplit (PyStr.pyStrip line) sep).length ≠ 2 →
      (∀ mode, mode = "train" ∨ mode = "val" →
        ∃ m, parseLine mode sep root line = .error (.valueError m)) ∧
      parseLine "test" sep root line =
        .ok (PyStr.osJoin root
          ((PyStr.pySplit (PyStr.pyStrip line) sep).headD ""), none)) := by
  refine ⟨?_, ?_, ?_⟩
  · intro mode h
    have hc : PyStr.pyLower (PyStr.pyLower mode) ∉ (["train", "val", "test"] : List String) := by
      rw [PyStr.pyLower_idem]; exact h
    exact ⟨"mode should be train, val or test, but got " ++ PyStr.pyLower mode ++ ".",
      by simp [checkMode, hc]⟩
  · intro mode h
    have hc : PyStr.pyLower (PyStr.pyLower mode) ∈ (["train", "val", "test"] : List String) := by
      rw [PyStr.pyLower_idem]; exact h
    simp [checkMode, hc]
  · intro sep root line h
    constructor
    · intro mode hm
      refine ⟨"File list format incorrect! In training or evaluation task it should be image_name"
          ++ sep ++ "label_name", ?_⟩
      rcases hm with rfl | rfl <;> simp [parseLine, h]
    · simp [parseLine, h]

theorem dataset_mode_and_line_errors_witness :
    PyStr.pyLower "TrAiN" ∈ (["train", "val", "test"] : List String) ∧
    checkMode "TrAiN" = .ok "train" ∧
    (PyStr.pySplit (PyStr.pyStrip " a b c ") " ").length ≠ 2 ∧
    parseLine "test" " " "root" " a b c " = .ok ("root/a", none) :=
  ⟨by decide,
   by
     have := dataset_mode_and_line_errors.2.1 "TrAiN" (by decide)
     simpa using this,
   by decide,
   by
     have := (dataset_mode_and_line_errors.2.2 " " "root" " a b c " (by decide)).2
     simpa using this⟩

end SegDataset

/-! Checkpoint retention in `contrib/Matting/core/train.py`. -/

namespace MattingTrain

/-- One checkpoint save from `train` (lines 167–179): append the new
checkpoint directory to the `save_models` deque; when
`len(save_models) > keep_checkpoint_max > 0`, `popleft` the oldest
directory and `rmtree` it. Returns the new deque and the removed
directory, if any. -/
def saveStep (keep_checkpoint_max : Int) (save_models : List String)
    (current_save_dir : String) : List String × Option String :=
  let q := save_models ++ [current_save_dir]
  if (q.length : Int) > keep_checkpoint_max ∧ keep_checkpoint_max > 0 then
    (q.tail, q.head?)
  else
    (q, none)

/-- The `save_models` deque left after a whole sequence of checkpoint
saves, starting from the empty deque, oldest first. -/
def runSaves (keep_checkpoint_max : Int) (dirs : List String) : List String :=
  dirs.foldl (fun q d => (saveStep keep_checkpoint_max q d).1) []

theorem saveStep_length_le (k : Int) (hk : 0 < k) (q : List String) (d : String)
    (hq : (q.length : Int) ≤ k) : (((saveStep k q d).1.length : Int)) ≤ k := by
  rw [saveStep]
  split
  · simp
    omega
  · next h =>
    have hlen : ¬(((q ++ [d]).length : Int) > k) := fun hgt => h ⟨hgt, hk⟩
    simp at hlen ⊢
    omega

/-- C10: with `keep_checkpoint_max > 0`, after every checkpoint save the
number of retained periodic checkpoint directories never exceeds
`keep_checkpoint_max`; a directory is removed exactly when the limit
would be exceeded, and the one removed is the oldest retained checkpoint
(the front of the deque: first in, first out). -/
theorem checkpoint_retention (k : Int) (hk : 0 < k) :
    (∀ dirs, ((runSaves k dirs).length : Int) ≤ k) ∧
    (∀ q d, (q.length : Int) ≤ k →
      (((saveStep k q d).1.length : Int) ≤ k ∧
       (∀ r, (saveStep k q d).2 = some r → q.head? = some r) ∧
       ((saveStep k q d).2.isSome ↔ (q.length : Int) + 1 > k))) := by
  constructor
  · intro dirs
    rw [runSaves]
    have main : ∀ (ds : List String) (q : List String), (q.length : Int) ≤ k →
        (((ds.foldl (fun q d => (saveStep k q d).1) q).length : Int)) ≤ k := by
      intro ds
      induction ds with
      | nil => intro q hq; exact hq
      | cons d ds ih =>
        intro q hq
        exact ih _ (saveStep_length_le k hk q d hq)
    exact main dirs [] (by simp; omega)
  · intro q d hq
    refine ⟨saveStep_length_le k hk q d hq, ?_, ?_⟩
    · intro r hr
      rw [saveStep] at hr
      by_cases h : ((q ++ [d]).length : Int) > k ∧ k > 0
      · rw [if_pos h] at hr
        cases q with
        | nil =>
          simp at h
          omega
        | cons a as =>
          simp at hr ⊢
          exact hr
      · rw [if_neg h] at hr
        simp at hr
    · rw [saveStep]
      by_cases h : ((q ++ [d]).length : Int) > k ∧ k > 0
      · rw [if_pos h]
        simp at h ⊢
        omega
      · rw [if_neg h]
        have hlen : ¬(((q ++ [d]).length : Int) > k) := fun hgt => h ⟨hgt, hk⟩
        simp at hlen ⊢
        omega

theorem checkpoint_retention_witness :
    (0 : Int) < 2 ∧
    ((runSaves 2 ["iter_1000", "iter_2000", "iter_3000"]).length : Int) ≤ 2 ∧
    runSaves 2 ["iter_1000", "iter_2000", "iter_3000"] = ["iter_2000", "iter_3000"] ∧
    ((["iter_1000", "iter_2000"] : List String).length : Int) ≤ 2 ∧
    saveStep 2 ["iter_1000", "iter_2000"] "iter_3000" =
      (["iter_2000", "iter_3000"], some "iter_1000") ∧
    (["iter_1000", "iter_2000"] : List String).head? = some "iter_1000" :=
  ⟨by decide,
   (checkpoint_retention 2 (by decide)).1 ["iter_1000", "iter_2000", "iter_3000"],
   by decide,
   by decide,
   by decide,
   ((checkpoint_retention 2 (by decide)).2 ["iter_1000", "iter_2000"] "iter_3000"
      (by decide)).2.1 "iter_1000" (by decide)⟩

end MattingTrain

/-! The Zoom-In Transform's crop computation and coordinate mappings.
The transform's code (`inference.transforms.ZoomIn`) is not among the
excerpted source files, so it is modelled from the spec (§4.2). -/

namespace ZoomTransform

/-- Modelled from the spec: the `ZoomState` produced by `compute_crop`
(§3): the crop box in full-image coordinates together with the recorded
resize scale and zero-padding offsets used for the inverse mapping. -/
structure ZoomState where
  r0 : ℚ
  c0 : ℚ
  r1 : ℚ
  c1 : ℚ
  scale : ℚ
  pad_r : ℚ
  pad_c : ℚ
deriving DecidableEq

/-- Modelled from the spec: `compute_crop(image_shape, click_bbox,
margin_ratio, target_size)` (§4.2) — expand the click bounding box by
`margin_ratio` on each side, clip to the image bounds, resize to
`target_size` preserving aspect ratio and record the scale and the
padding offsets for the inverse mapping. -/
def compute_crop (h w br0 bc0 br1 bc1 margin_ratio target_size : ℚ) :
    ZoomState :=
  let mr := (br1 - br0) * margin_ratio
  let mc := (bc1 - bc0) * margin_ratio
  let r0 := max 0 (br0 - mr)
  let r1 := min h (br1 + mr)
  let c0 := max 0 (bc0 - mc)
  let c1 := min w (bc1 + mc)
  let scale := target_size / max (r1 - r0) (c1 - c0)
  { r0 := r0, c0 := c0, r1 := r1, c1 := c1, scale := scale,
    pad_r := (target_size - (r1 - r0) * scale) / 2,
    pad_c := (target_size - (c1 - c0) * scale) / 2 }

/-- Modelled from the spec: `to_crop(row, col)` — map a full-image point
into crop coordinates using the recorded scale, offset and padding. -/
def to_crop (z : ZoomState) (p : ℚ × ℚ) : ℚ × ℚ :=
  ((p.1 - z.r0) * z.scale + z.pad_r, (p.2 - z.c0) * z.scale + z.pad_c)

/-- Modelled from the spec: `to_full(row, col)` — map a crop point back
to full-image coordinates; the exact affine inverse of `to_crop`. -/
def to_full (z : ZoomState) (p : ℚ × ℚ) : ℚ × ℚ :=
  ((p.1 - z.pad_r) / z.scale + z.r0, (p.2 - z.pad_c) / z.scale + z.c0)

theorem round_trip_of_scale_ne_zero (z : ZoomState) (hs : z.scale ≠ 0)
    (p : ℚ × ℚ) : to_full z (to_crop z p) = p := by
  rw [Prod.ext_iff]
  constructor
  · show ((p.1 - z.r0) * z.scale + z.pad_r - z.pad_r) / z.scale + z.r0 = p.1
    field_simp
  · show ((p.2 - z.c0) * z.scale + z.pad_c - z.pad_c) / z.scale + z.c0 = p.2
    field_simp

theorem compute_crop_scale_pos (h w br0 bc0 br1 bc1 margin_ratio target_size : ℚ)
    (ht : 0 < target_size) (hm : 0 ≤ margin_ratio)
    (hbr0 : 0 ≤ br0) (hbr : br0 < br1) (hbr1 : br1 ≤ h) :
    0 < (compute_crop h w br0 bc0 br1 bc1 margin_ratio target_size).scale := by
  simp only [compute_crop]
  have hmr : 0 ≤ (br1 - br0) * margin_ratio := mul_nonneg (by linarith) hm
  have hr0 : max 0 (br0 - (br1 - br0) * margin_ratio) ≤ br0 :=
    max_le hbr0 (by linarith)
  have hr1 : br1 ≤ min h (br1 + (br1 - br0) * margin_ratio) :=
    le_min hbr1 (by linarith)
  have hrr : (0 : ℚ) < min h (br1 + (br1 - br0) * margin_ratio) -
      max 0 (br0 - (br1 - br0) * margin_ratio) := by linarith
  exact div_pos ht (lt_max_of_lt_left hrr)

/-- C6: for the `ZoomState` computed by `compute_crop` from a
non-degenerate click bounding box inside the image, the coordinate
mappings are exact affine inverses: `to_full (to_crop p) = p` for every
point `p` (in particular every point of the crop region). -/
theorem zoom_round_trip (h w br0 bc0 br1 bc1 margin_ratio target_size : ℚ)
    (ht : 0 < target_size) (hm : 0 ≤ margin_ratio)
    (hbr0 : 0 ≤ br0) (hbr : br0 < br1) (hbr1 : br1 ≤ h)
    (p : ℚ × ℚ) :
    to_full (compute_crop h w br0 bc0 br1 bc1 margin_ratio target_size)
      (to_crop (compute_crop h w br0 bc0 br1 bc1 margin_ratio target_size) p) =
      p :=
  round_trip_of_scale_ne_zero _
    (ne_of_gt (compute_crop_scale_pos h w br0 bc0 br1 bc1 margin_ratio
      target_size ht hm hbr0 hbr hbr1)) p

theorem zoom_round_trip_witness :
    (0 : ℚ) < 64 ∧ (0 : ℚ) ≤ 1 ∧ (0 : ℚ) ≤ 10 ∧ (10 : ℚ) < 12 ∧ (12 : ℚ) ≤ 200 ∧
    to_full (compute_crop 200 200 10 10 12 11 1 64)
      (to_crop (compute_crop 200 200 10 10 12 11 1 64) (10, 10)) = (10, 10) :=
  ⟨by decide, by decide, by decide, by decide, by decide,
   zoom_round_trip 200 200 10 10 12 11 1 64 (by decide) (by decide)
     (by decide) (by decide) (by decide) (10, 10)⟩

end ZoomTransform

/-! The Predictor's per-step state update. `BasePredictor`'s code
(`inference.predictor.base`) is not among the excerpted source files, so
the step is modelled from the spec (§4.3, §7). -/

namespace PredictorStep

/-- Modelled from the spec: the Predictor's per-session state (§3) — the
loaded image shape, the accumulated `ClickSet` and the
`PredictionState`'s `previous_mask`. -/
structure PredState where
  height : Nat
  width : Nat
  clicks : List (ℚ × ℚ × Bool)
  previous_mask : Option (List (List ℚ))
deriving DecidableEq

/-- Modelled from the spec: the error taxonomy of §7 that a step can
surface. -/
inductive StepError
  | invalidCoordinate
  | inferenceFailure (msg : String)
deriving DecidableEq

/-- Modelled from the spec: one `add_click` step of the Predictor state
machine (§4.3) — validate the click against the image bounds, append it
to the click set, invoke the Inference Adapter (the external network
capability) on the accumulated click state and the prior mask, and only
on success commit the new state; every failure propagates (§7). -/
def step
    (net : List (ℚ × ℚ × Bool) → Option (List (List ℚ)) →
      Except StepError (List (List ℚ)))
    (st : PredState) (row col : ℚ) (is_positive : Bool) :
    Except StepError PredState :=
  if 0 ≤ row ∧ row < (st.height : ℚ) ∧ 0 ≤ col ∧ col < (st.width : ℚ) then
    let clicks2 := st.clicks ++ [(row, col, is_positive)]
    match net clicks2 st.previous_mask with
    | .error e => .error e
    | .ok m => .ok { st with clicks := clicks2, previous_mask := some m }
  else
    .error .invalidCoordinate

/-- Modelled from the spec: the caller-visible session state after a step
— a step either fully completes and updates the state, or the state is
unchanged (atomic step semantics, §7). -/
def stateAfter
    (net : List (ℚ × ℚ × Bool) → Option (List (List ℚ)) →
      Except StepError (List (List ℚ)))
    (st : PredState) (row col : ℚ) (is_positive : Bool) : PredState :=
  match step net st row col is_positive with
  | .ok st2 => st2
  | .error _ => st

/-- C7: when the Inference Adapter (the underlying network call) fails,
the error propagates to the caller and the Predictor's state — in
particular `previous_mask` — is unchanged from its value before the step
began. -/
theorem step_atomic_on_inference_failure
    (net : List (ℚ × ℚ × Bool) → Option (List (List ℚ)) →
      Except StepError (List (List ℚ)))
    (st : PredState) (row col : ℚ) (is_positive : Bool) (msg : String)
    (hb : 0 ≤ row ∧ row < (st.height : ℚ) ∧ 0 ≤ col ∧ col < (st.width : ℚ))
    (hnet : net (st.clicks ++ [(row, col, is_positive)]) st.previous_mask =
      .error (.inferenceFailure msg)) :
    step net st row col is_positive = .error (.inferenceFailure msg) ∧
    stateAfter net st row col is_positive = st ∧
    (stateAfter net st row col is_positive).previous_mask =
      st.previous_mask := by
  have hstep : step net st row col is_positive =
      .error (.inferenceFailure msg) := by
    rw [step, if_pos hb]
    simp only [hnet]
  have hafter : stateAfter net st row col is_positive = st := by
    rw [stateAfter, hstep]
  exact ⟨hstep, hafter, by rw [hafter]⟩

theorem step_atomic_on_inference_failure_witness :
    ((0 : ℚ) ≤ 0 ∧ (0 : ℚ) < ((2 : Nat) : ℚ) ∧ (0 : ℚ) ≤ 1 ∧
      (1 : ℚ) < ((2 : Nat) : ℚ)) ∧
    (fun (_ : List (ℚ × ℚ × Bool)) (_ : Option (List (List ℚ))) =>
        (.error (.inferenceFailure "network failed") :
          Except StepError (List (List ℚ))))
      ((PredState.mk 2 2 [] (some [[0, 0], [0, 0]])).clicks ++ [(0, 1, true)])
      (PredState.mk 2 2 [] (some [[0, 0], [0, 0]])).previous_mask =
      .error (.inferenceFailure "network failed") ∧
    stateAfter
      (fun _ _ => .error (.inferenceFailure "network failed"))
      (PredState.mk 2 2 [] (some [[0, 0], [0, 0]])) 0 1 true =
      PredState.mk 2 2 [] (some [[0, 0], [0, 0]]) :=
  ⟨⟨by decide, by decide, by decide, by decide⟩, rfl,
   (step_atomic_on_inference_failure
      (fun _ _ => .error (.inferenceFailure "network failed"))
      (PredState.mk 2 2 [] (some [[0, 0], [0, 0]])) 0 1 true
      "network failed"
      ⟨by decide, by decide, by decide, by decide⟩ rfl).2.1⟩

end PredictorStep
